import Mathlib

/-!
Verification of the PDF compressor-and-splitter (src/compress.py) against its
specification. The program is shallowly embedded: the size-bounded splitter
`split_pdf` is modelled over an abstract serialized-size function
`size : List Nat → Nat` (the byte size of the container obtained by
serializing the given source-page indices with deflation and garbage
collection); the pipeline orchestrator `run_process` is modelled over an
abstract per-file environment recording the outcomes of the external
strategies and of the file system; the binarization strategy
`compress_binary_bw` is modelled over rational pixel arithmetic (Python
floats are modelled exactly by ℚ).
-/

namespace Compressor

/-! ## Size-bounded splitter (src/compress.py, `split_pdf`, lines 134-180)

A part is the list of source page indices it contains.  `buildPart` is the
inner `while p < total_pages` loop: it grows one candidate part starting at
cursor `p`; the first page of a chunk is always added; afterwards each page
is first trial-serialized together with the candidate part and added only if
the trial size does not exceed the budget.  The `Bool` component records
whether at least one trial serialization (hence a write of the trial temp
file `__trial_<base>.pdf`) happened.  The loop is given as structural
recursion on a fuel argument; the top-level entry point passes fuel equal to
the page count, which the lemmas below show is always sufficient. -/

def buildPart (size : List Nat → Nat) (maxB total : Nat) :
    Nat → Nat → List Nat → List Nat × Nat × Bool
  | 0, p, part => (part, p, false)
  | fuel + 1, p, part =>
    if p < total then
      if part.isEmpty then
        -- "Always add first page of a chunk"
        buildPart size maxB total fuel (p + 1) (part ++ [p])
      else if maxB < size (part ++ [p]) then
        -- trial_size > max_size_bytes: break (a trial save happened)
        (part, p, true)
      else
        -- commit the page (a trial save happened)
        let r := buildPart size maxB total fuel (p + 1) (part ++ [p])
        (r.1, r.2.1, true)
    else (part, p, false)

/-- Outer `while start < total_pages` loop of `split_pdf`: emit parts until
the cursor reaches the end.  Returns the emitted parts in emission order and
whether any trial serialization happened during the whole split. -/
def splitParts (size : List Nat → Nat) (maxB total : Nat) :
    Nat → Nat → List (List Nat) × Bool
  | 0, _ => ([], false)
  | fuel + 1, start =>
    if start < total then
      let r := buildPart size maxB total (total - start) start []
      let rest := splitParts size maxB total fuel r.2.1
      (r.1 :: rest.1, r.2.2 || rest.2)
    else ([], false)

/-- `split_pdf`: the list of emitted parts (each part the list of source page
indices it contains, in order), for a document of `total` pages under byte
budget `maxB`.  The 1-based part numbers of the source are the positions in
this list shifted by one. -/
def split_pdf (size : List Nat → Nat) (maxB total : Nat) : List (List Nat) :=
  (splitParts size maxB total total 0).1

/-- Whether a run of `split_pdf` performed at least one trial serialization,
i.e. wrote the trial temp file in the platform temporary directory. -/
def splitTrialOccurred (size : List Nat → Nat) (maxB total : Nat) : Bool :=
  (splitParts size maxB total total 0).2

/-- Main invariant of the inner part-building loop: starting from a part that
is a contiguous run of pages `[a, p)`, `buildPart` returns a contiguous run
`[a, p')` with `p ≤ p' ≤ total`, and it preserves the budget invariant that
any part of at least two pages has serialized size within the budget. -/
theorem bp_spec (size : List Nat → Nat) (maxB total : Nat) :
    ∀ fuel p a part, a ≤ p → p ≤ total → part = List.range' a (p - a) →
      (2 ≤ part.length → size part ≤ maxB) →
      (buildPart size maxB total fuel p part).1 =
          List.range' a ((buildPart size maxB total fuel p part).2.1 - a) ∧
        p ≤ (buildPart size maxB total fuel p part).2.1 ∧
        (buildPart size maxB total fuel p part).2.1 ≤ total ∧
        (2 ≤ (buildPart size maxB total fuel p part).1.length →
          size (buildPart size maxB total fuel p part).1 ≤ maxB) := by
  intro fuel
  induction fuel with
  | zero =>
    intro p a part hap hpt hpart hsz
    exact ⟨hpart, le_refl p, hpt, hsz⟩
  | succ f ih =>
    intro p a part hap hpt hpart hsz
    by_cases hp : p < total
    · have hcat : part ++ [p] = List.range' a (p + 1 - a) := by
        have h1 : p + 1 - a = (p - a) + 1 := by omega
        have h2 : a + (p - a) = p := by omega
        rw [hpart, h1, List.range'_1_concat, h2]
      by_cases he : part.isEmpty
      · have hres : buildPart size maxB total (f + 1) p part =
            buildPart size maxB total f (p + 1) (part ++ [p]) := by
          simp only [buildPart, if_pos hp, he, if_pos]
        rw [hres]
        have hnil : part = [] := List.isEmpty_iff.mp he
        have h := ih (p + 1) a (part ++ [p]) (by omega) hp hcat
          (by rw [hnil]; intro hl; simp at hl)
        exact ⟨h.1, by omega, h.2.2.1, h.2.2.2⟩
      · by_cases hov : maxB < size (part ++ [p])
        · have hres : buildPart size maxB total (f + 1) p part = (part, p, true) := by
            simp only [buildPart, if_pos hp, if_neg he, if_pos hov]
          rw [hres]
          exact ⟨hpart, le_refl p, hpt, hsz⟩
        · have hres : buildPart size maxB total (f + 1) p part =
              ((buildPart size maxB total f (p + 1) (part ++ [p])).1,
               (buildPart size maxB total f (p + 1) (part ++ [p])).2.1, true) := by
            simp only [buildPart, if_pos hp, if_neg he, if_neg hov]
          rw [hres]
          dsimp only
          have h := ih (p + 1) a (part ++ [p]) (by omega) hp hcat
            (fun _ => by omega)
          exact ⟨h.1, by omega, h.2.2.1, h.2.2.2⟩
    · have hres : buildPart size maxB total (f + 1) p part = (part, p, false) := by
        simp only [buildPart, if_neg hp]
      rw [hres]
      exact ⟨hpart, le_refl p, hpt, hsz⟩

/-- Forward progress of the inner loop: started on an empty candidate part at
a cursor strictly before the end, with at least one unit of fuel, the loop
always advances the cursor (the first page of a chunk is added
unconditionally). -/
theorem bp_progress (size : List Nat → Nat) (maxB total fuel p : Nat)
    (hp : p < total) (hf : 1 ≤ fuel) :
    p < (buildPart size maxB total fuel p []).2.1 := by
  obtain ⟨f, rfl⟩ : ∃ f, fuel = f + 1 := ⟨fuel - 1, by omega⟩
  have hres : buildPart size maxB total (f + 1) p ([] : List Nat) =
      buildPart size maxB total f (p + 1) ([] ++ [p]) := by
    simp only [buildPart, if_pos hp, List.isEmpty_nil, if_pos]
  rw [hres]
  have h := bp_spec size maxB total f (p + 1) p ([] ++ [p]) (by omega) hp
    (by simp [List.range']) (by intro hl; simp at hl)
  omega

/-- Main invariant of the outer loop: with sufficient fuel, the emitted parts
starting from cursor `start` concatenate to exactly the page range
`[start, total)`, there are at most `total - start` parts, and every part of
at least two pages fits in the budget. -/
theorem sp_spec (size : List Nat → Nat) (maxB total : Nat) :
    ∀ fuel start, start ≤ total → total - start ≤ fuel →
      (splitParts size maxB total fuel start).1.flatten =
          List.range' start (total - start) ∧
        (splitParts size maxB total fuel start).1.length ≤ total - start ∧
        ∀ part ∈ (splitParts size maxB total fuel start).1,
          2 ≤ part.length → size part ≤ maxB := by
  intro fuel
  induction fuel with
  | zero =>
    intro start hst hf
    have heq : start = total := by omega
    subst heq
    simp [splitParts]
  | succ f ih =>
    intro start hst hf
    by_cases hs : start < total
    · have hspec := bp_spec size maxB total (total - start) start start []
        (le_refl _) (le_of_lt hs) (by simp) (by intro hl; simp at hl)
      have hprog := bp_progress size maxB total (total - start) start hs (by omega)
      set r := buildPart size maxB total (total - start) start [] with hr
      have hres : splitParts size maxB total (f + 1) start =
          (r.1 :: (splitParts size maxB total f r.2.1).1,
           r.2.2 || (splitParts size maxB total f r.2.1).2) := by
        simp only [splitParts, if_pos hs]
      have hrest := ih r.2.1 hspec.2.2.1 (by omega)
      rw [hres]
      refine ⟨?_, ?_, ?_⟩
      · have h1 : start + 1 * (r.2.1 - start) = r.2.1 := by omega
        have h2 : (total - r.2.1) + (r.2.1 - start) = total - start := by omega
        have key := List.range'_append start (r.2.1 - start) (total - r.2.1) 1
        rw [h1, h2] at key
        simp only [List.flatten_cons, hrest.1, hspec.1, key]
      · have := hrest.2.1
        simp only [List.length_cons]
        omega
      · intro part hmem
        rcases List.mem_cons.mp hmem with hh | ht
        · exact hh ▸ hspec.2.2.2
        · exact hrest.2.2 part ht
    · have heq : start = total := by omega
      subst heq
      simp [splitParts]

/-- Concrete serialized-size function used by the witnesses below: each page
contributes one byte. -/
def sizeByCount (l : List Nat) : Nat := l.length

/-- C1: For every document with N pages and every positive byte budget, the
output parts of the splitter, in emission order, contain exactly the source
pages 0..N-1 in source order, each page exactly once across all parts: their
concatenation is the full page range. -/
theorem C1_split_partition (size : List Nat → Nat) (maxB total : Nat)
    (_hpos : 0 < maxB) :
    (split_pdf size maxB total).flatten = List.range total := by
  have h := sp_spec size maxB total total 0 (Nat.zero_le _) (by omega)
  rw [List.range_eq_range']
  simpa using h.1

/-- Witness for C1 at a concrete input: budget 2 bytes, 5 one-byte pages. -/
theorem C1_split_partition_witness :
    (0 : Nat) < 2 ∧ (split_pdf sizeByCount 2 5).flatten = List.range 5 :=
  ⟨by decide, C1_split_partition sizeByCount 2 5 (by decide)⟩

/-- C2: Every emitted part containing at least 2 pages has serialized byte
size at most the caller-supplied budget; only a single-page part may exceed
it. -/
theorem C2_budget_respect (size : List Nat → Nat) (maxB total : Nat)
    (part : List Nat) (hmem : part ∈ split_pdf size maxB total)
    (hlen : 2 ≤ part.length) :
    size part ≤ maxB := by
  have h := sp_spec size maxB total total 0 (Nat.zero_le _) (by omega)
  exact h.2.2 part hmem hlen

/-- Witness for C2 at a concrete input: budget 2 bytes, 4 one-byte pages;
the first emitted part is [0, 1] and its size 2 fits the budget. -/
theorem C2_budget_respect_witness :
    [0, 1] ∈ split_pdf sizeByCount 2 4 ∧ 2 ≤ ([0, 1] : List Nat).length ∧
      sizeByCount [0, 1] ≤ 2 :=
  ⟨by decide, by decide, C2_budget_respect sizeByCount 2 4 [0, 1]
    (by decide) (by decide)⟩

/-- C3: Each iteration of the outer loop strictly advances the page cursor
(the first page of a new part is added unconditionally, even if it alone
exceeds the budget), so the splitter terminates after at most N
part-building iterations: at most N parts are emitted for N pages. -/
theorem C3_split_progress (size : List Nat → Nat) (maxB total : Nat) :
    (∀ start, start < total →
      start < (buildPart size maxB total (total - start) start []).2.1) ∧
    (split_pdf size maxB total).length ≤ total := by
  constructor
  · intro start hs
    exact bp_progress size maxB total (total - start) start hs (by omega)
  · have h := sp_spec size maxB total total 0 (Nat.zero_le _) (by omega)
    simpa using h.2.1

/-- Witness for C3 at a concrete input: budget 1 byte, 3 one-byte pages (the
cursor advances from 0 and at most 3 parts come out). -/
theorem C3_split_progress_witness :
    0 < (buildPart sizeByCount 1 3 (3 - 0) 0 []).2.1 ∧
      (split_pdf sizeByCount 1 3).length ≤ 3 :=
  ⟨(C3_split_progress sizeByCount 1 3).1 0 (by decide),
   (C3_split_progress sizeByCount 1 3).2⟩

/-- C10: For a source document with zero pages, the splitter returns an empty
list of output parts and writes no output files: the part-building loop is
never entered. -/
theorem C10_empty_doc (size : List Nat → Nat) (maxB : Nat) :
    split_pdf size maxB 0 = [] := rfl

/-! ## Pipeline orchestrator (src/compress.py, `NagarkotCompressorApp.run_process`,
lines 372-432)

The per-file processing inside the `for pdf_path in self.pdf_list` loop is
embedded as a pure function of an abstract per-file environment: the
environment records the bytes of the input file, the success of each
compression strategy (the external Ghostscript chain, the PyMuPDF container
optimization, the binarization), the content left at the `_comp_temp.pdf`
path by the attempted strategies (`none` when no file was created), the page
count of the working source and the serialized-size function used by the
splitter, and whether an uncaught exception occurs while processing the
file. -/

/-- The three compression strategies of the source. -/
inductive Strategy
  | gs
  | pymupdf
  | binary
  deriving DecidableEq

/-- Compression levels of the GUI combobox, "Standard (GS)" and
"Extreme (B&W)". -/
inductive CompLevel
  | standard
  | extreme
  deriving DecidableEq

/-- Action modes of the GUI combobox. -/
inductive ActionMode
  | splitOnly
  | compressOnly
  | compressSplit
  deriving DecidableEq

/-- Per-file terminal status shown in the table. -/
inductive Status
  | doneSaved
  | doneSplit
  | error
  deriving DecidableEq

/-- Compression attempt of `run_process` (lines 399-407): at Extreme the
binarization strategy alone runs; at Standard the Ghostscript strategy runs
and, only if it fails, the PyMuPDF container optimization runs.  Returns
the resulting `success` flag and the list of strategies invoked, in order. -/
def compressChain (level : CompLevel) (gsOk pmOk binOk : Bool) :
    Bool × List Strategy :=
  match level with
  | CompLevel.extreme => (binOk, [Strategy.binary])
  | CompLevel.standard =>
    if gsOk then (true, [Strategy.gs])
    else (pmOk, [Strategy.gs, Strategy.pymupdf])

/-- `should_compress = (act == "Compress Only" or act == "Compress + Split")`
(line 397). -/
def shouldCompress (act : ActionMode) : Bool :=
  act = ActionMode.compressOnly || act = ActionMode.compressSplit

/-- The test `"Split" in act` (line 415): the substring "Split" occurs in
"Split Only" and in "Compress + Split" but not in "Compress Only". -/
def wantsSplit (act : ActionMode) : Bool :=
  act = ActionMode.splitOnly || act = ActionMode.compressSplit

/-- Abstract per-file environment: everything the file system and the
external libraries decide during the processing of one file. -/
structure FileEnv where
  /-- Bytes of the input PDF at `pdf_path`. -/
  origContent : List Nat
  /-- Page count of the working source handed to the splitter. -/
  pages : Nat
  /-- Serialized-size function of the working source (see `split_pdf`). -/
  sizeFn : List Nat → Nat
  /-- `int(split_mb * 1024 * 1024)`, the split budget in bytes. -/
  maxBytes : Nat
  /-- Whether `compress_standard_gs` reports success. -/
  gsOk : Bool
  /-- Whether `compress_pymupdf_optimize` reports success. -/
  pmOk : Bool
  /-- Whether `compress_binary_bw` reports success. -/
  binOk : Bool
  /-- Content left at the `_comp_temp.pdf` path by the attempted strategies
  (`none` when the file was not created). -/
  tempContent : Option (List Nat)
  /-- Whether an uncaught exception occurs while processing this file. -/
  raises : Bool

/-- Result of processing one file: terminal status, whether the working
source was replaced by the compressed temp file, the strategies invoked, the
bytes written to the `_processed.pdf` output (`none` in split mode, where
parts are written instead), the emitted split parts, and which temporary
files are still present in the platform temporary directory afterwards. -/
structure FileResult where
  status : Status
  sourceIsTemp : Bool
  strategies : List Strategy
  finalContent : Option (List Nat)
  splitOutputs : List (List Nat)
  /-- The splitter's trial file `__trial_<base>.pdf` remains in the temp
  directory. -/
  trialLeft : Bool
  /-- The compressed working copy `<base>_comp_temp.pdf` remains in the temp
  directory. -/
  compLeft : Bool

/-- Outcome of the compression attempt of lines 399-407: the chain runs only
when the mode asks for compression (`success` starts out false and stays
false otherwise, since line 401 is inside the `if should_compress` block). -/
def chainOf (act : ActionMode) (level : CompLevel) (env : FileEnv) :
    Bool × List Strategy :=
  if shouldCompress act then compressChain level env.gsOk env.pmOk env.binOk
  else (false, [])

/-- Whether the `_comp_temp.pdf` file exists after the compression attempt
(the strategies only write it when compression was attempted). -/
def compWrittenOf (act : ActionMode) (env : FileEnv) : Bool :=
  shouldCompress act && env.tempContent.isSome

/-- The guard of line 409, `success and os.path.exists(temp_comp) and
get_file_size(temp_comp) > 0`: exactly when it holds does `current_source`
become the compressed temp file (line 410). -/
def sourceIsTempOf (act : ActionMode) (level : CompLevel) (env : FileEnv) :
    Bool :=
  (chainOf act level env).1 && compWrittenOf act env &&
    decide (0 < (env.tempContent.getD []).length)

/-- Body of the per-file `try` block of `run_process` (lines 390-426),
assuming no uncaught exception: run the compression chain when the mode asks
for it, adopt the compressed temp file as working source only when the chain
succeeded and the temp file exists with nonzero size (lines 409-413), then
either split the working source (lines 415-419) or move/copy it to the final
output (lines 420-426).  No temporary file is ever deleted; the only removal
is the `shutil.move` promoting the used temp file to the final output. -/
def processFile (act : ActionMode) (level : CompLevel) (env : FileEnv) :
    FileResult :=
  if wantsSplit act then
    { status := Status.doneSplit
      sourceIsTemp := sourceIsTempOf act level env
      strategies := (chainOf act level env).2
      finalContent := none
      splitOutputs := split_pdf env.sizeFn env.maxBytes env.pages
      trialLeft := splitTrialOccurred env.sizeFn env.maxBytes env.pages
      compLeft := compWrittenOf act env }
  else if sourceIsTempOf act level env then
    -- current_source != pdf_path: shutil.move(current_source, final_output)
    { status := Status.doneSaved
      sourceIsTemp := sourceIsTempOf act level env
      strategies := (chainOf act level env).2
      finalContent := env.tempContent
      splitOutputs := []
      trialLeft := false
      compLeft := false }
  else
    -- shutil.copy(pdf_path, final_output)
    { status := Status.doneSaved
      sourceIsTemp := sourceIsTempOf act level env
      strategies := (chainOf act level env).2
      finalContent := some env.origContent
      splitOutputs := []
      trialLeft := false
      compLeft := compWrittenOf act env }

/-- One iteration of the batch loop, with the `try`/`except` of lines
390-430: an uncaught exception is caught and turned into the "Error"
status. -/
def processOne (act : ActionMode) (level : CompLevel) (env : FileEnv) :
    Except Unit FileResult :=
  if env.raises then Except.error () else Except.ok (processFile act level env)

/-- Status recorded in the table for one file, after the `except` handler. -/
def statusOf (act : ActionMode) (level : CompLevel) (env : FileEnv) : Status :=
  match processOne act level env with
  | Except.error _ => Status.error
  | Except.ok r => r.status

/-- The `for pdf_path in self.pdf_list` loop of `run_process`: process each
file in order, recording one terminal status per file. -/
def run_process (act : ActionMode) (level : CompLevel) :
    List FileEnv → List Status
  | [] => []
  | env :: rest => statusOf act level env :: run_process act level rest

/-- Every branch of `processFile` records the same invoked-strategy list. -/
theorem processFile_strategies (act : ActionMode) (level : CompLevel)
    (env : FileEnv) :
    (processFile act level env).strategies = (chainOf act level env).2 := by
  unfold processFile
  by_cases h1 : wantsSplit act = true
  · simp [h1]
  · by_cases h2 : sourceIsTempOf act level env = true <;>
      simp [h1, h2]

/-- Every branch of `processFile` records the same working-source flag. -/
theorem processFile_sourceIsTemp (act : ActionMode) (level : CompLevel)
    (env : FileEnv) :
    (processFile act level env).sourceIsTemp = sourceIsTempOf act level env := by
  unfold processFile
  by_cases h1 : wantsSplit act = true
  · simp [h1]
  · by_cases h2 : sourceIsTempOf act level env = true <;>
      simp [h1, h2]

/-- C4: At the "Standard" level, when the external Ghostscript backend fails
or is unavailable, the container-optimization strategy is attempted and, if
it succeeds (and its output file exists with nonzero size), its output
becomes the working source; the binarization (Extreme) strategy is never
among the invoked strategies at "Standard" level. -/
theorem C4_standard_fallback (act : ActionMode) (env : FileEnv)
    (hc : shouldCompress act = true) (hgs : env.gsOk = false) :
    Strategy.pymupdf ∈ (processFile act CompLevel.standard env).strategies ∧
    Strategy.binary ∉ (processFile act CompLevel.standard env).strategies ∧
    (env.pmOk = true → env.tempContent.isSome = true →
      0 < (env.tempContent.getD []).length →
      (processFile act CompLevel.standard env).sourceIsTemp = true) := by
  have hstrat : (processFile act CompLevel.standard env).strategies =
      [Strategy.gs, Strategy.pymupdf] := by
    rw [processFile_strategies]
    simp [chainOf, hc, compressChain, hgs]
  refine ⟨?_, ?_, ?_⟩
  · rw [hstrat]; simp
  · rw [hstrat]; simp
  · intro hpm hsome hlen
    rw [processFile_sourceIsTemp]
    simp [sourceIsTempOf, chainOf, compWrittenOf, hc, compressChain, hgs,
      hpm, hsome, hlen]

/-- Concrete environment for the C4 witness: Ghostscript unavailable, the
container optimization succeeds and leaves a nonempty temp file. -/
def envFallback : FileEnv :=
  { origContent := [1], pages := 2, sizeFn := fun _ => 0, maxBytes := 100,
    gsOk := false, pmOk := true, binOk := false, tempContent := some [5, 5, 5],
    raises := false }

/-- Witness for C4 at a concrete input. -/
theorem C4_standard_fallback_witness :
    Strategy.pymupdf ∈
      (processFile ActionMode.compressOnly CompLevel.standard envFallback).strategies ∧
    Strategy.binary ∉
      (processFile ActionMode.compressOnly CompLevel.standard envFallback).strategies ∧
    (processFile ActionMode.compressOnly CompLevel.standard envFallback).sourceIsTemp
      = true :=
  have h := C4_standard_fallback ActionMode.compressOnly envFallback
    (by decide) (by decide)
  ⟨h.1, h.2.1, h.2.2 (by decide) (by decide) (by decide)⟩

/-- C5: In "Compress Only" mode, if every compression strategy fails, the
working source remains the original input and the bytes written to the final
output are exactly the bytes of the original input file. -/
theorem C5_all_fail_identity (level : CompLevel) (env : FileEnv)
    (hfail : (compressChain level env.gsOk env.pmOk env.binOk).1 = false) :
    (processFile ActionMode.compressOnly level env).sourceIsTemp = false ∧
    (processFile ActionMode.compressOnly level env).finalContent =
      some env.origContent := by
  have hs : sourceIsTempOf ActionMode.compressOnly level env = false := by
    simp [sourceIsTempOf, chainOf, shouldCompress, hfail]
  constructor
  · rw [processFile_sourceIsTemp]; exact hs
  · unfold processFile
    simp [wantsSplit, hs]

/-- Concrete environment for the C5 witness: every strategy fails (a stale
nonempty temp file is even present, but it is not adopted). -/
def envAllFail : FileEnv :=
  { origContent := [3, 1, 4], pages := 1, sizeFn := fun _ => 0, maxBytes := 9,
    gsOk := false, pmOk := false, binOk := false, tempContent := some [9, 9],
    raises := false }

/-- Witness for C5 at a concrete input. -/
theorem C5_all_fail_identity_witness :
    (processFile ActionMode.compressOnly CompLevel.standard envAllFail).sourceIsTemp
      = false ∧
    (processFile ActionMode.compressOnly CompLevel.standard envAllFail).finalContent
      = some envAllFail.origContent :=
  C5_all_fail_identity CompLevel.standard envAllFail (by decide)

/-- C7: Whenever the compression chain reports success and its output file
exists with nonzero size, the working copy is replaced by that output — with
no size comparison against the input, so even an output at least as large as
the input is adopted, and in "Compress Only" mode it becomes the final
output. -/
theorem C7_no_size_comparison (act : ActionMode) (level : CompLevel)
    (env : FileEnv) (c : List Nat)
    (hc : shouldCompress act = true)
    (hsucc : (compressChain level env.gsOk env.pmOk env.binOk).1 = true)
    (htemp : env.tempContent = some c) (hlen : 0 < c.length) :
    (processFile act level env).sourceIsTemp = true ∧
    (act = ActionMode.compressOnly →
      (processFile act level env).finalContent = some c) := by
  have hs : sourceIsTempOf act level env = true := by
    simp [sourceIsTempOf, chainOf, compWrittenOf, hc, hsucc, htemp, hlen]
  constructor
  · rw [processFile_sourceIsTemp]; exact hs
  · rintro rfl
    unfold processFile
    simp [wantsSplit, hs, htemp]

/-- Concrete environment for the C7 witness: compression "succeeds" with a
4-byte output although the original input is only 1 byte — the larger output
is still adopted and written out. -/
def envBigger : FileEnv :=
  { origContent := [1], pages := 1, sizeFn := fun _ => 0, maxBytes := 9,
    gsOk := true, pmOk := false, binOk := false,
    tempContent := some [9, 9, 9, 9], raises := false }

/-- Witness for C7 at a concrete input where the compressed output is larger
than the input. -/
theorem C7_no_size_comparison_witness :
    (processFile ActionMode.compressOnly CompLevel.standard envBigger).sourceIsTemp
      = true ∧
    (processFile ActionMode.compressOnly CompLevel.standard envBigger).finalContent
      = some [9, 9, 9, 9] :=
  have h := C7_no_size_comparison ActionMode.compressOnly CompLevel.standard
    envBigger [9, 9, 9, 9] (by decide) (by decide) rfl (by decide)
  ⟨h.1, h.2 rfl⟩

/-- C8: An uncaught failure while processing one file of a batch is caught,
recorded as the "Error" status for that file, and processing continues with
the files after it; the statuses of the other files are exactly those of
processing them on their own. -/
theorem C8_batch_isolation (act : ActionMode) (level : CompLevel)
    (pre post : List FileEnv) (env : FileEnv) (hr : env.raises = true) :
    run_process act level (pre ++ env :: post) =
      run_process act level pre ++ Status.error :: run_process act level post := by
  induction pre with
  | nil => simp [run_process, statusOf, processOne, hr]
  | cons e rest ih => simp [run_process, ih]

/-- Environment whose processing raises an uncaught exception. -/
def envRaises : FileEnv :=
  { origContent := [2], pages := 3, sizeFn := fun _ => 0, maxBytes := 9,
    gsOk := false, pmOk := false, binOk := false, tempContent := none,
    raises := true }

/-- Witness for C8 at a concrete input: the failing file in the middle of a
batch of three yields "Error" and the neighbours are still processed. -/
theorem C8_batch_isolation_witness :
    run_process ActionMode.splitOnly CompLevel.standard
        ([envFallback] ++ envRaises :: [envAllFail]) =
      run_process ActionMode.splitOnly CompLevel.standard [envFallback] ++
        Status.error ::
          run_process ActionMode.splitOnly CompLevel.standard [envAllFail] :=
  C8_batch_isolation ActionMode.splitOnly CompLevel.standard [envFallback]
    [envAllFail] envRaises (by decide)

/-- Concrete environment exhibiting the temp-file leak of the splitter: a
2-page document in "Split Only" mode, so at least one trial serialization
writes the trial file, which is never deleted. -/
def envLeak : FileEnv :=
  { origContent := [7], pages := 2, sizeFn := fun _ => 0, maxBytes := 100,
    gsOk := false, pmOk := false, binOk := false, tempContent := none,
    raises := false }

/-- Counterexample to C9 as stated: after successfully processing `envLeak`
in "Split Only" mode, the splitter's trial-serialization file still remains
in the platform temporary directory — a temporary file does remain after the
run, on a success path. -/
theorem C9_cex_trial_leak :
    ((processFile ActionMode.splitOnly CompLevel.standard envLeak).trialLeft ||
      (processFile ActionMode.splitOnly CompLevel.standard envLeak).compLeft)
      = true := by decide

/-- C9 (amended): temporary files are not cleaned up on every exit path.  In
any splitting mode the trial file remains in the temporary directory exactly
when a trial serialization occurred, and the compressed working copy remains
whenever it was written; only on the compress-only path is the compressed
working copy promoted (moved) to the final output — and then no temporary
file of this model remains. -/
theorem C9_temp_lifecycle (act : ActionMode) (level : CompLevel)
    (env : FileEnv) :
    (wantsSplit act = true →
      (processFile act level env).trialLeft =
        splitTrialOccurred env.sizeFn env.maxBytes env.pages ∧
      (processFile act level env).compLeft = compWrittenOf act env) ∧
    (act = ActionMode.compressOnly →
      (processFile act level env).trialLeft = false ∧
      ((processFile act level env).sourceIsTemp = true →
        (processFile act level env).compLeft = false)) := by
  constructor
  · intro hw
    unfold processFile
    simp [hw]
  · rintro rfl
    unfold processFile
    by_cases hs : sourceIsTempOf ActionMode.compressOnly level env = true <;>
      simp [wantsSplit, hs]

/-- Witness for the amended C9 at a concrete input: a Compress + Split run
leaves both the trial file and the written working copy behind. -/
theorem C9_temp_lifecycle_witness :
    (processFile ActionMode.compressSplit CompLevel.standard envFallback).trialLeft
        = splitTrialOccurred envFallback.sizeFn envFallback.maxBytes
            envFallback.pages ∧
      (processFile ActionMode.compressSplit CompLevel.standard envFallback).compLeft
        = compWrittenOf ActionMode.compressSplit envFallback :=
  (C9_temp_lifecycle ActionMode.compressSplit CompLevel.standard
    envFallback).1 (by decide)

/-! ## Binarization strategy (src/compress.py, `compress_binary_bw`,
lines 96-128)

A source page is its geometry in PDF points together with its rasterizer: a
function from a dpi value to the page's RGB samples (`page.get_pixmap(dpi=...)`
followed by `Image.frombytes("RGB", ...)`).  The `img.convert("L")` grayscale
conversion is an external library primitive and is passed in as an abstract
per-pixel function `toGray`.  Python floats (`np.mean`, `* 0.92`) are
modelled exactly by ℚ.  The losslessly PNG-encoded image is modelled by the
pixel array it encodes, and an output page by its geometry together with the
list of images placed on it. -/

/-- A source page: geometry in points and a rasterizer giving RGB samples at
a requested dpi. -/
structure SrcPage where
  width : ℚ
  height : ℚ
  render : Nat → List (Nat × Nat × Nat)

/-- An output page of the freshly built document: geometry and the images
placed on it (each image given by its pixel array, which a lossless encoding
preserves exactly). -/
structure BWPage where
  width : ℚ
  height : ℚ
  images : List (List Nat)

/-- `np.mean` of a pixel array, in exact rational arithmetic. -/
def meanQ (l : List Nat) : ℚ := (l.sum : ℚ) / l.length

/-- Per-page body of the loop of `compress_binary_bw` (lines 102-120):
rasterize at 200 DPI, convert to grayscale, threshold at `mean * 0.92`
(pixels strictly above the threshold become white 255, the rest black 0),
and place the resulting image as the sole content of a new page of the same
width and height. -/
def binarizePage (toGray : Nat × Nat × Nat → Nat) (page : SrcPage) : BWPage :=
  let arr := (page.render 200).map toGray
  let thresh := meanQ arr * (92 / 100 : ℚ)
  let bw := arr.map (fun (v : Nat) => if (v : ℚ) > thresh then 255 else 0)
  { width := page.width, height := page.height, images := [bw] }

/-- `compress_binary_bw`: apply the per-page binarization to every page of
the source document, building a fresh document of the results. -/
def compress_binary_bw (toGray : Nat × Nat × Nat → Nat)
    (doc : List SrcPage) : List BWPage :=
  doc.map (binarizePage toGray)

/-- Default pages used to state positional facts without dependent indexing. -/
def defaultSrcPage : SrcPage := { width := 0, height := 0, render := fun _ => [] }

/-- Default output page. -/
def defaultBWPage : BWPage := { width := 0, height := 0, images := [] }

/-- C6: For every page of the input, the binarization strategy rasterizes at
200 DPI, converts to 8-bit grayscale, computes the page's threshold as the
mean pixel intensity times 0.92, maps every pixel to pure white (255) or
pure black (0) by comparison against that threshold, and places the
losslessly re-encoded image as the sole content of a new page of the same
width and height in a freshly built document with one output page per source
page. -/
theorem C6_binarization (toGray : Nat × Nat × Nat → Nat) (doc : List SrcPage)
    (k : Nat) (hk : k < doc.length) :
    (compress_binary_bw toGray doc).length = doc.length ∧
    ((compress_binary_bw toGray doc).getD k defaultBWPage).width =
      (doc.getD k defaultSrcPage).width ∧
    ((compress_binary_bw toGray doc).getD k defaultBWPage).height =
      (doc.getD k defaultSrcPage).height ∧
    ((compress_binary_bw toGray doc).getD k defaultBWPage).images =
      [((doc.getD k defaultSrcPage).render 200).map
        (fun rgb =>
          if (toGray rgb : ℚ) >
              meanQ (((doc.getD k defaultSrcPage).render 200).map toGray) *
                (92 / 100 : ℚ)
          then 255 else 0)] := by
  have hget : (compress_binary_bw toGray doc).getD k defaultBWPage =
      binarizePage toGray ((doc.getD k defaultSrcPage)) := by
    unfold compress_binary_bw
    rw [List.getD_eq_getElem?_getD, List.getElem?_map,
      List.getD_eq_getElem?_getD]
    rcases List.getElem?_eq_getElem (l := doc) (n := k) hk with h
    rw [h]
    rfl
  refine ⟨by simp [compress_binary_bw], ?_, ?_, ?_⟩
  · rw [hget]; rfl
  · rw [hget]; rfl
  · rw [hget]
    unfold binarizePage
    dsimp only
    rw [List.map_map]
    rfl

/-- Concrete one-page document for the C6 witness: two black-ish pixels and
one bright pixel; the mean is 100, the threshold 92, so exactly the bright
pixel turns white. -/
def docBW : List SrcPage :=
  [{ width := 612, height := 792,
     render := fun _ => [(30, 30, 30), (30, 30, 30), (240, 240, 240)] }]

/-- Grayscale conversion used by the C6 witness: take the red channel. -/
def grayRed (rgb : Nat × Nat × Nat) : Nat := rgb.1

/-- Witness for C6 at a concrete input. -/
theorem C6_binarization_witness :
    (compress_binary_bw grayRed docBW).length = docBW.length ∧
    ((compress_binary_bw grayRed docBW).getD 0 defaultBWPage).width =
      (docBW.getD 0 defaultSrcPage).width ∧
    ((compress_binary_bw grayRed docBW).getD 0 defaultBWPage).height =
      (docBW.getD 0 defaultSrcPage).height ∧
    ((compress_binary_bw grayRed docBW).getD 0 defaultBWPage).images =
      [((docBW.getD 0 defaultSrcPage).render 200).map
        (fun rgb =>
          if (grayRed rgb : ℚ) >
              meanQ (((docBW.getD 0 defaultSrcPage).render 200).map grayRed) *
                (92 / 100 : ℚ)
          then 255 else 0)] :=
  C6_binarization grayRed docBW 0 (by decide)

end Compressor
